import Mathlib

/-!
Verification of the Furniverse recommendation backend and indexing pipeline.

This development shallowly embeds the query-time compromise engine
(`Backend/main.py`: `smart_recommend` with its nested `parse_user_requirements`
and `analyze_compromises`, and `fusion_recommend`), the embedding-based
preference extractor (`Backend/embedding_tradeoff.py`), and the batched
upload/retry discipline of the multimodal indexer
(`Pipeline/indexing/index_qdrant.py`).

Python floats are modelled as exact rationals; Python string containment
(`needle in hay`) is modelled by `strIn`; the `"%.0f"` float format is
modelled by `fmt0` (round half to even, as Python does); dictionaries whose
keys are statically known become structures; `try/except` producers become
`Option`-valued inputs.
-/

/-- Occurrence of `needle` as a contiguous sublist of `hay`
(Python's `needle in hay` on strings, over the character lists). -/
def listIn (needle : List Char) : List Char → Bool
  | [] => needle.isEmpty
  | c :: t => needle.isPrefixOf (c :: t) || listIn needle t

/-- Python string containment `needle in hay`. -/
def strIn (needle hay : String) : Bool :=
  listIn needle.toList hay.toList

/-- Python's `"%.0f"` formatting of a float, modelled on exact rationals:
round to the nearest integer, ties to even (banker's rounding). -/
def fmt0 (q : ℚ) : ℤ :=
  let f := q.floor
  let r := q - (f : ℚ)
  if r < 1/2 then f
  else if 1/2 < r then f + 1
  else if f % 2 = 0 then f else f + 1

/-- Decimal rendering of an integer, as Python's f-string interpolation of
an integral value does. -/
def intStr (i : ℤ) : String := toString i

/-- Python's `round(x, 2)`: round to two decimal places, ties to even. -/
def round2 (q : ℚ) : ℚ := (fmt0 (q * 100) : ℚ) / 100

/-- Python's `str.capitalize()`: first character upper-cased, rest lower-cased. -/
def pyCapitalize (s : String) : String := s.toLower.capitalize

/-- Python's `", ".join(xs)`. -/
def joinComma (xs : List String) : String := String.intercalate ", " xs

/-- Product payload fields consumed by the smart-recommend compromise engine
(`payload.get(...)` keys of `Backend/main.py`). -/
structure Product where
  name : String
  category : String
  description : String
  colors : List String
  tags : List String
  price : ℚ
deriving DecidableEq, Repr

/-- The `requirements` dict built by `parse_user_requirements` in
`smart_recommend` (`Backend/main.py`): budget ceiling plus keyword lists. -/
structure UserReqs where
  budget : Option ℚ
  colors : List String
  materials : List String
  styles : List String
  sizes : List String
  features : List String
deriving DecidableEq, Repr

/-- Advantages, disadvantages and score delta contributed by one block of
`analyze_compromises`. -/
structure BlockOut where
  adv : List String
  dis : List String
  score : ℚ
deriving Repr

/-- Budget block of `analyze_compromises` (`Backend/main.py` lines 970-985).
The guard `if user_reqs['budget']:` is Python truthiness: it skips both a
missing budget and a budget of exactly 0. -/
def budgetBlock (budget : Option ℚ) (price : ℚ) : BlockOut :=
  match budget with
  | none => ⟨[], [], 0⟩
  | some b =>
    if b = 0 then ⟨[], [], 0⟩
    else
      let diff := price - b
      let pct := if 0 < b then diff / b * 100 else 0
      if diff ≤ 0 then
        let under := |diff|
        if b * (1/10) < under then
          ⟨["$" ++ intStr (fmt0 under) ++ " under budget (" ++ intStr (fmt0 |pct|) ++ "% savings)"],
           [], 10⟩
        else ⟨["Within budget"], [], 15⟩
      else
        ⟨[], ["$" ++ intStr (fmt0 diff) ++ " over budget (+" ++ intStr (fmt0 pct) ++ "%)"],
         -(pct / 10)⟩

/-- Color block of `analyze_compromises`: requested colors matching any
product color by substring count as matches; with no match, the disadvantage
depends on whether the product lists colors at all. -/
def colorBlock (reqColors : List String) (productColors : List String) : BlockOut :=
  if reqColors = [] then ⟨[], [], 0⟩
  else
    let matching := reqColors.filter (fun c => productColors.any (fun pc => strIn c pc))
    if matching ≠ [] then
      ⟨["Exact " ++ joinComma matching ++ " color match"], [], 10 * matching.length⟩
    else if productColors ≠ [] then
      ⟨[], ["Different color: " ++ joinComma (productColors.take 2)], -8⟩
    else
      ⟨[], ["Color not specified"], -5⟩

/-- Whether a requested material appears in the (lower-cased) description,
name, or any tag of the product — the per-material test of
`analyze_compromises`. -/
def materialPresent (desc name : String) (tags : List String) (m : String) : Bool :=
  strIn m desc || strIn m name || tags.any (fun t => strIn m t)

/-- Material block of `analyze_compromises`: each requested material yields
either a "Has requested" advantage (+8) or a "Missing" disadvantage (-6). -/
def materialBlock (reqMaterials : List String) (desc name : String) (tags : List String) :
    BlockOut :=
  let present := reqMaterials.filter (materialPresent desc name tags)
  let missing := reqMaterials.filter (fun m => !(materialPresent desc name tags m))
  ⟨present.map (fun m => "Has requested " ++ m),
   missing.map (fun m => "Missing " ++ m),
   8 * present.length - 6 * missing.length⟩

/-- Style block of `analyze_compromises`: matched styles only ever add
advantages (+5 each); there is no disadvantage branch. -/
def styleBlock (reqStyles : List String) (desc name : String) (tags : List String) : BlockOut :=
  let matched := reqStyles.filter (materialPresent desc name tags)
  ⟨matched.map (fun s => pyCapitalize s ++ " style as requested"), [], 5 * matched.length⟩

/-- Size block of `analyze_compromises`: sizes are matched against name and
description only, advantages (+5 each), no disadvantages. -/
def sizeBlock (reqSizes : List String) (name desc : String) : BlockOut :=
  let matched := reqSizes.filter (fun s => strIn s name || strIn s desc)
  ⟨matched.map (fun s => pyCapitalize s ++ " size as requested"), [], 5 * matched.length⟩

/-- Feature block of `analyze_compromises`: advantages (+5 each) only. -/
def featureBlock (reqFeatures : List String) (desc name : String) (tags : List String) :
    BlockOut :=
  let matched := reqFeatures.filter (materialPresent desc name tags)
  ⟨matched.map (fun f => "Has " ++ f ++ " feature"), [], 5 * matched.length⟩

/-- Quality-indicator keywords scanned by `analyze_compromises`. -/
def qualityIndicators : List String :=
  ["premium", "luxury", "durable", "solid wood", "genuine", "high-quality"]

/-- Quality block: the first matching quality indicator (description or tags)
adds one advantage and no score change; the loop breaks after the first hit. -/
def qualityBlock (desc : String) (tags : List String) : BlockOut :=
  match qualityIndicators.find? (fun i => strIn i desc || tags.any (fun t => strIn i t)) with
  | some i => ⟨["Premium quality (" ++ i ++ ")"], [], 0⟩
  | none => ⟨[], [], 0⟩

/-- Feature-indicator keywords scanned for the "Extra features" advantage. -/
def featureIndicators : List String :=
  ["storage", "chaise", "sectional", "convertible", "sleeper"]

/-- Extra-features block: indicators found in name or description add one
advantage (+3), but only when none of them was explicitly requested. -/
def extraFeaturesBlock (reqFeatures : List String) (name desc : String) : BlockOut :=
  let found := featureIndicators.filter (fun f => strIn f name || strIn f desc)
  if found ≠ [] ∧ ¬ found.any (fun f => reqFeatures.contains f) then
    ⟨["Extra features: " ++ joinComma (found.take 2)], [], 3⟩
  else ⟨[], [], 0⟩

/-- Raw advantages, disadvantages and (unrounded) compromise score of
`analyze_compromises` (`Backend/main.py` lines 955-1070), before the summary
sentence, the empty-advantages placeholder, and the final `round(_, 2)`. -/
def analyzeCore (product : Product) (reqs : UserReqs) (similarity : ℚ) :
    List String × List String × ℚ :=
  let pn := product.name.toLower
  let pd := product.description.toLower
  let pcolors := product.colors.map String.toLower
  let ptags := product.tags.map String.toLower
  let b := budgetBlock reqs.budget product.price
  let c := colorBlock reqs.colors pcolors
  let m := materialBlock reqs.materials pd pn ptags
  let st := styleBlock reqs.styles pd pn ptags
  let sz := sizeBlock reqs.sizes pn pd
  let ft := featureBlock reqs.features pd pn ptags
  let q := qualityBlock pd ptags
  let ex := extraFeaturesBlock reqs.features pn pd
  (b.adv ++ c.adv ++ m.adv ++ st.adv ++ sz.adv ++ ft.adv ++ q.adv ++ ex.adv,
   b.dis ++ c.dis ++ m.dis,
   b.score + c.score + m.score + st.score + sz.score + ft.score + q.score + ex.score
     + similarity * 50)

/-- The summary sentence template selection of `analyze_compromises`. -/
def compromiseSummary (advantages disadvantages : List String) : String :=
  match disadvantages with
  | [] =>
    match advantages with
    | a1 :: a2 :: _ :: _ =>
      "Perfect match: " ++ a1.toLower ++ ", " ++ a2.toLower ++ ", and "
        ++ toString (advantages.length - 2) ++ " more benefits"
    | [a1, a2] => "Great match: " ++ a1.toLower ++ " and " ++ a2.toLower
    | [a1] => "Good match: " ++ a1.toLower
    | [] => "Solid option that meets your needs"
  | d1 :: _ =>
    let advText := match advantages with
      | [] => "matches your search"
      | a1 :: _ => a1.toLower
    "Trade-off: " ++ advText ++ ", but " ++ d1.toLower

/-- The dict returned by `analyze_compromises`. -/
structure CompromiseAnalysis where
  summary : String
  advantages : List String
  disadvantages : List String
  compromise_score : ℚ
deriving DecidableEq, Repr

/-- `analyze_compromises` (`Backend/main.py` lines 955-1070): empty advantages
are replaced by a placeholder, disadvantages are kept as computed, and the
score is rounded to two decimals. -/
def analyzeCompromises (product : Product) (reqs : UserReqs) (similarity : ℚ) :
    CompromiseAnalysis :=
  let (adv, dis, score) := analyzeCore product reqs similarity
  { summary := compromiseSummary adv dis
    advantages := if adv = [] then ["Matches your search criteria"] else adv
    disadvantages := dis
    compromise_score := round2 score }

/-- A scored search hit: product payload plus the raw similarity score, as
returned by the vector index (`qdrant_client.search` result). -/
structure Candidate where
  payload : Product
  score : ℚ
deriving DecidableEq, Repr

/-- The `score_threshold=THRESHOLD_MINIMUM` (0.67) filter that the vector
index applies to the `smart_recommend` candidate search: only hits scoring at
or above the floor are returned. -/
def smartFilter (raw : List Candidate) : List Candidate :=
  raw.filter (fun c => decide ((67 : ℚ)/100 ≤ c.score))

/-- Color-mismatch test of the `smart_recommend` classification loop: some
colors were requested and none of them occurs (as a substring) in any
lower-cased product color. -/
def hasColorMismatch (reqs : UserReqs) (p : Product) : Bool :=
  if reqs.colors = [] then false
  else
    let productColors := p.colors.map String.toLower
    let requested := reqs.colors.map String.toLower
    (requested.filter (fun c => productColors.any (fun pc => strIn c pc))).isEmpty

/-- Material-mismatch test of the `smart_recommend` classification loop: some
materials were requested and none occurs in the (full, lower-cased) product
description. -/
def hasMaterialMismatch (reqs : UserReqs) (p : Product) : Bool :=
  if reqs.materials = [] then false
  else
    let pd := p.description.toLower
    ((reqs.materials.map String.toLower).filter (fun m => strIn m pd)).isEmpty

/-- The budget test of the classification: `max_price is None or
price <= max_price`. -/
def withinBudget (budget : Option ℚ) (price : ℚ) : Bool :=
  match budget with
  | none => true
  | some mp => decide (price ≤ mp)

/-- Combined color-or-material mismatch used to split the within-budget
candidates between the perfect and alternatives tiers. -/
def tierMismatch (reqs : UserReqs) (c : Candidate) : Bool :=
  hasColorMismatch reqs c.payload || hasMaterialMismatch reqs c.payload

/-- One pass over the candidates assigning each to exactly one of the three
tiers, in candidate order (`smart_recommend`, `Backend/main.py` lines
1115-1165): within budget and no mismatch → perfect; within budget with a
mismatch → alternatives; otherwise → over-budget. -/
def tiersUncapped (reqs : UserReqs) :
    List Candidate → List Candidate × List Candidate × List Candidate
  | [] => ([], [], [])
  | c :: rest =>
    let t := tiersUncapped reqs rest
    if withinBudget reqs.budget c.payload.price then
      if tierMismatch reqs c then (t.1, c :: t.2.1, t.2.2)
      else (c :: t.1, t.2.1, t.2.2)
    else (t.1, t.2.1, c :: t.2.2)

/-- The `product_data` dict built per candidate in `smart_recommend`: same
payload with the description truncated to its first 100 characters. -/
def productDataOf (c : Candidate) : Product :=
  { c.payload with description := c.payload.description.take 100 }

/-- The per-candidate sort key: the (rounded) compromise score attached by
`analyze_compromises`. -/
def candKey (reqs : UserReqs) (c : Candidate) : ℚ :=
  (analyzeCompromises (productDataOf c) reqs c.score).compromise_score

/-- Python's stable `list.sort(key=..., reverse=True)`: stable sort,
descending by key. -/
def sortByKeyDesc (key : Candidate → ℚ) (l : List Candidate) : List Candidate :=
  l.mergeSort (fun a b => decide (key b ≤ key a))

/-- The three tier lists of the `/recommend/smart` response. -/
structure SmartTiers where
  perfect : List Candidate
  alternatives : List Candidate
  overBudget : List Candidate
deriving DecidableEq, Repr

/-- The tiered result of `smart_recommend`: filter by the 0.67 floor, classify
into tiers, sort each tier by compromise score descending, and truncate to
10 / 5 / 5 entries. -/
def smartRecommendTiers (reqs : UserReqs) (raw : List Candidate) : SmartTiers :=
  let t := tiersUncapped reqs (smartFilter raw)
  let key := candKey reqs
  ⟨(sortByKeyDesc key t.1).take 10, (sortByKeyDesc key t.2.1).take 5,
   (sortByKeyDesc key t.2.2).take 5⟩

/-- Number of graph-space searches performed by `fusion_recommend`
(`Backend/main.py` lines 770-795). `primary` abstracts the budget-filtered
`text_clip` search; `refGraphVector` abstracts retrieving the top hit's
`graph` vector (`none` models a retrieve failure, an empty retrieve result, or
a missing vector; the code also skips the search when the vector is an empty
list, via `if graph_vector:`). -/
def fusionGraphInvocations (primary : Option ℚ → List Candidate)
    (refGraphVector : Option (List ℚ)) (maxPrice : Option ℚ) : Nat :=
  if (primary maxPrice).isEmpty then 0
  else
    match refGraphVector with
    | none => 0
    | some v => if v.isEmpty then 0 else 1

/-- The base materials scored by `EmbeddingAttributeExtractor
.extract_preferences` (`Backend/embedding_tradeoff.py` line 147). -/
def baseMaterials : List String := ["leather", "velvet", "fabric", "wood", "metal"]

/-- The keys of `attribute_embeddings` built by `_build_attribute_embeddings`
(note: of the leather variants only "pu leather" has an embedding). -/
def attributeKeys : List String :=
  ["leather", "pu leather", "velvet", "fabric", "wood", "metal",
   "modern", "traditional", "industrial", "minimalist", "scandinavian",
   "red", "blue", "green", "neutral", "comfy", "firm", "affordable", "premium"]

/-- The leather variants probed by `extract_preferences` (line 164). -/
def leatherVariants : List String := ["pu leather", "genuine leather", "faux leather"]

/-- Python's `max(d, key=d.get)` over keys in insertion order: the first key
attaining the maximal similarity. -/
def argmaxFirst (sim : String → ℚ) : List String → Option String
  | [] => none
  | x :: xs =>
    match argmaxFirst sim xs with
    | none => some x
    | some y => if sim x < sim y then some y else some x

/-- Material resolution of `extract_preferences` (`Backend/
embedding_tradeoff.py` lines 144-187), abstracted over the cosine
similarities `sim` of the query embedding to each attribute embedding: the
top base material is accepted only above the 0.3 floor, and for leather the
variant (only "pu leather" has an embedding) overrides the base only when
its similarity beats the base similarity by more than 0.1. -/
def extractMaterial (sim : String → ℚ) : Option String :=
  match argmaxFirst sim baseMaterials with
  | none => none
  | some top =>
    if 3/10 < sim top then
      if top = "leather" then
        let variants := leatherVariants.filter (fun v => attributeKeys.contains v)
        match argmaxFirst sim variants with
        | none => some "leather"
        | some tv => if sim "leather" + 1/10 < sim tv then some tv else some "leather"
      else some top
    else none

/-- Dot product of two vectors (`np.dot` on equal-length vectors). -/
def dotList (v1 v2 : List ℚ) : ℚ := (List.zipWith (fun a b => a * b) v1 v2).sum

/-- Squared Euclidean norm; `np.linalg.norm v = sqrt (sqNorm v)`. -/
def sqNorm (v : List ℚ) : ℚ := (v.map (fun x => x * x)).sum

/-- `EmbeddingAttributeExtractor._cosine_similarity` (`Backend/
embedding_tradeoff.py` lines 231-236), abstracted over the square-root
function used for the norms: `dot / (norm1 * norm2) if norm1 and norm2 else
0`, where float truthiness means "non-zero". -/
def cosineSimilarity (sqrt : ℚ → ℚ) (v1 v2 : List ℚ) : ℚ :=
  let norm1 := sqrt (sqNorm v1)
  let norm2 := sqrt (sqNorm v2)
  if norm1 ≠ 0 ∧ norm2 ≠ 0 then dotList v1 v2 / (norm1 * norm2) else 0

/-- `EmbeddingTradeoffAnalyzer._analyze_budget` (`Backend/
embedding_tradeoff.py` lines 339-355): gains/loses strings for the budget
fit. -/
def analyzeBudgetTradeoff (price budget : ℚ) : List String × List String :=
  if price ≤ budget then
    let savings := budget - price
    if 0 < savings then
      (["✓ Under budget by $" ++ intStr (fmt0 savings) ++ " ($" ++ intStr (fmt0 price)
          ++ " vs $" ++ intStr (fmt0 budget) ++ ")"], [])
    else
      (["✓ Exactly your budget of $" ++ intStr (fmt0 budget)], [])
  else
    let overage := price - budget
    ([], ["✗ Over budget by $" ++ intStr (fmt0 overage) ++ " ($" ++ intStr (fmt0 price)
            ++ " vs $" ++ intStr (fmt0 budget) ++ ")"])

/-- An all-zero vector of the given dimension (`np.zeros(n)`). -/
def zeros (n : Nat) : List ℚ := List.replicate n 0

/-- Per-item producer outcomes feeding `MultimodalIndexer.index_products`
(`Pipeline/indexing/index_qdrant.py`): `none` models a raised exception (for
the CLIP and color producers) or the item id being absent from the table (for
the graph embedding). -/
structure ProducerOutputs where
  clipText : Option (List ℚ)
  imageUrl : Option String
  clipImage : Option (List ℚ)
  colorFeatures : Option (List ℚ)
  graphEmbedding : Option (List ℚ)

/-- The `text_clip` vector recorded for an item: the producer's output, or a
512-dimensional zero vector when encoding raised (lines 276-280). -/
def clipTextVector (o : ProducerOutputs) : List ℚ := o.clipText.getD (zeros 512)

/-- The `image_clip` vector recorded for an item: zero vector when the item
has no (truthy) image URL or when encoding raised (lines 282-291). -/
def clipImageVector (o : ProducerOutputs) : List ℚ :=
  match o.imageUrl with
  | none => zeros 512
  | some u => if u = "" then zeros 512 else o.clipImage.getD (zeros 512)

/-- The `color` vector recorded for an item: zero vector of dimension 548 on
extraction failure (lines 304-310). -/
def colorVector (o : ProducerOutputs) : List ℚ := o.colorFeatures.getD (zeros 548)

/-- The named-vector mapping put into an item's upsert point (lines 323-334):
CLIP and color entries are always present for their enabled producers, while
the `graph` entry is added only when the id is in the graph-embedding table. -/
def upsertVectors (useClip useColors useGraph : Bool) (o : ProducerOutputs) :
    List (String × List ℚ) :=
  (if useClip then [("text_clip", clipTextVector o), ("image_clip", clipImageVector o)] else [])
  ++ (if useColors then [("color", colorVector o)] else [])
  ++ (if useGraph then
        match o.graphEmbedding with
        | some g => [("graph", g)]
        | none => []
      else [])

/-- The backoff slept after failed attempt `attempt`:
`wait_time = (attempt + 1) * 5` (line 385). -/
def backoffWait (attempt : Nat) : Nat := (attempt + 1) * 5

/-- The `for attempt in range(max_retries)` retry loop around one batch
upsert (lines 373-390); `ok a` tells whether attempt `a` succeeds, `fuel` is
the number of attempts left. On success returns the number of attempts made
and the waits slept; when the last attempt fails the exception propagates
(`raise`), carrying the waits slept before it. -/
def uploadLoop (ok : Nat → Bool) : Nat → Nat → List Nat → Except (List Nat) (Nat × List Nat)
  | _, 0, waits => .error waits
  | attempt, fuel + 1, waits =>
    if ok attempt then .ok (attempt + 1, waits)
    else if fuel = 0 then .error waits
    else uploadLoop ok (attempt + 1) fuel (waits ++ [backoffWait attempt])

/-- One batch upload with `max_retries = 3`. -/
def uploadBatch (ok : Nat → Bool) : Except (List Nat) (Nat × List Nat) :=
  uploadLoop ok 0 3 []

/-- The whole upload phase: batches are uploaded in order and the first batch
that exhausts its retries aborts the run (the `raise` propagates out of
`index_products`). Returns the number of batches uploaded on success. -/
def indexRun : List (Nat → Bool) → Except (List Nat) Nat
  | [] => .ok 0
  | b :: rest =>
    match uploadBatch b with
    | .error w => .error w
    | .ok _ =>
      match indexRun rest with
      | .error w => .error w
      | .ok n => .ok (n + 1)

/-- An all-empty requirements record (no budget, no requested attributes). -/
def emptyReqs : UserReqs :=
  { budget := none, colors := [], materials := [], styles := [], sizes := [], features := [] }

/-- A generic red sofa product at a given name/price, used in concrete runs. -/
def redSofa (nm : String) (pr : ℚ) : Product :=
  { name := nm, category := "sofas", description := "", colors := ["red"], tags := [],
    price := pr }

/-- A candidate over `redSofa` with a given similarity score. -/
def redCand (nm : String) (pr sc : ℚ) : Candidate := { payload := redSofa nm pr, score := sc }

/-- Requirements asking for a blue item (no budget set; concrete runs attach
one via a structure update). -/
def blueReqsBase : UserReqs :=
  { budget := none, colors := ["blue"], materials := [], styles := [], sizes := [],
    features := [] }

/-- Six red-sofa candidates: five cheap ones and one at price 150 with the
highest similarity, used to exercise the tier caps. -/
def sixCands : List Candidate :=
  [redCand "p1" 50 (8/10), redCand "p2" 50 (8/10), redCand "p3" 50 (8/10),
   redCand "p4" 50 (8/10), redCand "p5" 50 (68/100), redCand "p6" 150 (9/10)]

/-- Eleven identical perfect-match candidates, one more than the perfect-tier
cap of 10. -/
def elevenCands : List Candidate := List.replicate 11 (redCand "x" 50 (7/10))

/-- Requirements asking for two colors and nothing else. -/
def twoColorReqs : UserReqs :=
  { budget := none, colors := ["blue", "red"], materials := [], styles := [], sizes := [],
    features := [] }

/-- A blue product (only one of the two requested colors matches). -/
def blueSofaCheap : Product :=
  { name := "", category := "sofas", description := "", colors := ["blue"], tags := [],
    price := 0 }

/-- Requirements with a parsed budget of exactly 0 (Python-falsy). -/
def zeroBudgetReqs : UserReqs :=
  { budget := some 0, colors := [], materials := [], styles := [], sizes := [], features := [] }

/-- Requirements with only a $600 budget. -/
def budget600Reqs : UserReqs :=
  { budget := some 600, colors := [], materials := [], styles := [], sizes := [], features := [] }

/-- Producer outcomes where every producer fails and the item has no graph
embedding. -/
def producerAllFail : ProducerOutputs := ⟨none, none, none, none, none⟩

/-- Attribute similarities with leather at 0.35 and the pu-leather variant at
0.50 (margin 0.15 > 0.1). -/
def simLeatherStrong : String → ℚ :=
  fun a => if a = "leather" then 7/20 else if a = "pu leather" then 1/2 else 0

/-- Attribute similarities with leather at 0.35 and the pu-leather variant at
0.40 (margin 0.05 ≤ 0.1). -/
def simLeatherWeak : String → ℚ :=
  fun a => if a = "leather" then 7/20 else if a = "pu leather" then 2/5 else 0

/-- A square-root stand-in satisfying sqrt q = 0 iff q = 0, used to
instantiate the cosine-similarity model on concrete vectors. -/
def guardSqrt : ℚ → ℚ := fun q => if q = 0 then 0 else 1

/-- The $949 blue sofa of the spec scenario. -/
def sofa949 : Product :=
  { name := "blue sofa", category := "sofas", description := "", colors := ["blue"], tags := [],
    price := 949 }

/-- A product priced exactly at the $600 budget ceiling. -/
def sofa600 : Product :=
  { name := "sofa", category := "sofas", description := "", colors := [], tags := [],
    price := 600 }

example : fmt0 (349 : ℚ) = 349 := by with_unfolding_all decide
example : fmt0 ((349 : ℚ) / 600 * 100) = 58 := by with_unfolding_all decide
example : strIn "blue" "dark blue sofa" = true := by decide
example : strIn "red" "blue" = false := by decide

open List in
lemma tiersUncapped_multiset (reqs : UserReqs) (l : List Candidate) :
    ((tiersUncapped reqs l).1 : Multiset Candidate) + (tiersUncapped reqs l).2.1
      + (tiersUncapped reqs l).2.2 = (l : Multiset Candidate) := by
  induction l with
  | nil => simp [tiersUncapped]
  | cons c rest ih =>
    by_cases h1 : withinBudget reqs.budget c.payload.price
    · by_cases h2 : tierMismatch reqs c
      · simp only [tiersUncapped, h1, h2, if_true]
        simp only [← Multiset.cons_coe, Multiset.add_cons, Multiset.cons_add]
        rw [← ih]
      · simp only [tiersUncapped, h1, h2, if_true, if_false, Bool.false_eq_true]
        simp only [← Multiset.cons_coe, Multiset.add_cons, Multiset.cons_add]
        rw [← ih]
    · simp only [tiersUncapped, h1, if_false, Bool.false_eq_true]
      simp only [← Multiset.cons_coe, Multiset.add_cons, Multiset.cons_add]
      rw [← ih]

open List in
lemma tiersUncapped_perm (reqs : UserReqs) (l : List Candidate) :
    ((tiersUncapped reqs l).1 ++ (tiersUncapped reqs l).2.1
      ++ (tiersUncapped reqs l).2.2).Perm l := by
  rw [← Multiset.coe_eq_coe]
  have h := tiersUncapped_multiset reqs l
  simpa using h

lemma mem_tiersUncapped_perfect {reqs : UserReqs} {l : List Candidate} {c : Candidate} :
    c ∈ (tiersUncapped reqs l).1 ↔
      c ∈ l ∧ withinBudget reqs.budget c.payload.price = true ∧ tierMismatch reqs c = false := by
  induction l with
  | nil => simp [tiersUncapped]
  | cons d rest ih =>
    by_cases h1 : withinBudget reqs.budget d.payload.price <;>
      by_cases h2 : tierMismatch reqs d <;>
        simp only [tiersUncapped, h1, h2, if_true, if_false, Bool.false_eq_true,
          List.mem_cons] <;>
      constructor <;> intro h <;>
        first
          | (rcases h with h | h
             · subst h; exact ⟨Or.inl rfl, h1, by simp [h2]⟩
             · have hmp := ih.mp h; exact ⟨Or.inr hmp.1, hmp.2.1, hmp.2.2⟩)
          | (have hmp := ih.mp h; exact ⟨Or.inr hmp.1, hmp.2.1, hmp.2.2⟩)
          | (rcases h with ⟨hd | hm, hw, hmm⟩
             · first
                | (subst hd; simp_all)
                | (subst hd; exact Or.inl rfl)
                | (subst hd; exact ih.mpr ⟨by simp_all, hw, hmm⟩)
             · first
                | exact Or.inr (ih.mpr ⟨hm, hw, hmm⟩)
                | exact ih.mpr ⟨hm, hw, hmm⟩)

lemma mem_tiersUncapped_alternatives {reqs : UserReqs} {l : List Candidate} {c : Candidate} :
    c ∈ (tiersUncapped reqs l).2.1 ↔
      c ∈ l ∧ withinBudget reqs.budget c.payload.price = true ∧ tierMismatch reqs c = true := by
  induction l with
  | nil => simp [tiersUncapped]
  | cons d rest ih =>
    by_cases h1 : withinBudget reqs.budget d.payload.price <;>
      by_cases h2 : tierMismatch reqs d <;>
        simp only [tiersUncapped, h1, h2, if_true, if_false, Bool.false_eq_true,
          List.mem_cons] <;>
      constructor <;> intro h <;>
        first
          | (rcases h with h | h
             · subst h; exact ⟨Or.inl rfl, h1, h2⟩
             · have hmp := ih.mp h; exact ⟨Or.inr hmp.1, hmp.2.1, hmp.2.2⟩)
          | (have hmp := ih.mp h; exact ⟨Or.inr hmp.1, hmp.2.1, hmp.2.2⟩)
          | (rcases h with ⟨hd | hm, hw, hmm⟩
             · first
                | (subst hd; simp_all)
                | (subst hd; exact Or.inl rfl)
                | (subst hd; exact ih.mpr ⟨by simp_all, hw, hmm⟩)
             · first
                | exact Or.inr (ih.mpr ⟨hm, hw, hmm⟩)
                | exact ih.mpr ⟨hm, hw, hmm⟩)

lemma mem_tiersUncapped_overBudget {reqs : UserReqs} {l : List Candidate} {c : Candidate} :
    c ∈ (tiersUncapped reqs l).2.2 ↔
      c ∈ l ∧ withinBudget reqs.budget c.payload.price = false := by
  induction l with
  | nil => simp [tiersUncapped]
  | cons d rest ih =>
    by_cases h1 : withinBudget reqs.budget d.payload.price <;>
      by_cases h2 : tierMismatch reqs d <;>
        simp only [tiersUncapped, h1, h2, if_true, if_false, Bool.false_eq_true,
          List.mem_cons] <;>
      constructor <;> intro h <;>
        first
          | (rcases h with h | h
             · subst h; exact ⟨Or.inl rfl, by simp [h1]⟩
             · have hmp := ih.mp h; exact ⟨Or.inr hmp.1, hmp.2⟩)
          | (have hmp := ih.mp h; exact ⟨Or.inr hmp.1, hmp.2⟩)
          | (rcases h with ⟨hd | hm, hw⟩
             · first
                | (subst hd; simp_all)
                | (subst hd; exact Or.inl rfl)
                | (subst hd; exact ih.mpr ⟨by simp_all, hw⟩)
             · first
                | exact Or.inr (ih.mpr ⟨hm, hw⟩)
                | exact ih.mpr ⟨hm, hw⟩)

lemma sortByKeyDesc_perm (key : Candidate → ℚ) (l : List Candidate) :
    (sortByKeyDesc key l).Perm l :=
  List.mergeSort_perm l _

lemma smartRecommendTiers_eq (reqs : UserReqs) (raw : List Candidate) :
    smartRecommendTiers reqs raw =
      ⟨(sortByKeyDesc (candKey reqs) (tiersUncapped reqs (smartFilter raw)).1).take 10,
       (sortByKeyDesc (candKey reqs) (tiersUncapped reqs (smartFilter raw)).2.1).take 5,
       (sortByKeyDesc (candKey reqs) (tiersUncapped reqs (smartFilter raw)).2.2).take 5⟩ := rfl

open List in
lemma take_sortByKeyDesc_subperm (key : Candidate → ℚ) (n : Nat) (l : List Candidate) :
    (sortByKeyDesc key l).take n <+~ l :=
  ((List.take_sublist n _).subperm).trans (sortByKeyDesc_perm key l).subperm

open List in
lemma subperm_append3 {l1 l2 l3 m1 m2 m3 : List Candidate} (h1 : l1 <+~ m1) (h2 : l2 <+~ m2)
    (h3 : l3 <+~ m3) : l1 ++ l2 ++ l3 <+~ m1 ++ m2 ++ m3 := by
  rw [← Multiset.coe_le] at *
  have e : ∀ x y z : List Candidate,
      ((x ++ y ++ z : List Candidate) : Multiset Candidate) = ↑x + ↑y + ↑z := fun _ _ _ => rfl
  rw [e, e]
  exact add_le_add (add_le_add h1 h2) h3

open List in
/-- C1: amended tier-partition property of `/recommend/smart`. Before the
per-tier caps, the classification is a true partition: the three uncapped
tier lists are a permutation of the floor-filtered candidate list, and every
candidate lands in the tier prescribed by its budget/mismatch tests. The
response tiers (sorted, then capped at 10/5/5) are pairwise disjoint and form
a sub-multiset of the candidate set, with equality exactly guaranteed when no
tier overflows its cap. -/
theorem c1_tier_partition_amended (reqs : UserReqs) (raw : List Candidate) :
    ((tiersUncapped reqs (smartFilter raw)).1 ++ (tiersUncapped reqs (smartFilter raw)).2.1
        ++ (tiersUncapped reqs (smartFilter raw)).2.2).Perm (smartFilter raw)
    ∧ (∀ c ∈ (tiersUncapped reqs (smartFilter raw)).1,
        withinBudget reqs.budget c.payload.price = true ∧ tierMismatch reqs c = false)
    ∧ (∀ c ∈ (tiersUncapped reqs (smartFilter raw)).2.1,
        withinBudget reqs.budget c.payload.price = true ∧ tierMismatch reqs c = true)
    ∧ (∀ c ∈ (tiersUncapped reqs (smartFilter raw)).2.2,
        withinBudget reqs.budget c.payload.price = false)
    ∧ ((smartRecommendTiers reqs raw).perfect ++ (smartRecommendTiers reqs raw).alternatives
        ++ (smartRecommendTiers reqs raw).overBudget) <+~ smartFilter raw
    ∧ ((tiersUncapped reqs (smartFilter raw)).1.length ≤ 10 →
       (tiersUncapped reqs (smartFilter raw)).2.1.length ≤ 5 →
       (tiersUncapped reqs (smartFilter raw)).2.2.length ≤ 5 →
        ((smartRecommendTiers reqs raw).perfect ++ (smartRecommendTiers reqs raw).alternatives
          ++ (smartRecommendTiers reqs raw).overBudget).Perm (smartFilter raw)) := by
  refine ⟨tiersUncapped_perm reqs (smartFilter raw), ?_, ?_, ?_, ?_, ?_⟩
  · intro c hc
    have h := mem_tiersUncapped_perfect.mp hc
    exact ⟨h.2.1, h.2.2⟩
  · intro c hc
    have h := mem_tiersUncapped_alternatives.mp hc
    exact ⟨h.2.1, h.2.2⟩
  · intro c hc
    exact (mem_tiersUncapped_overBudget.mp hc).2
  · simp only [smartRecommendTiers_eq]
    exact (subperm_append3 (take_sortByKeyDesc_subperm _ _ _) (take_sortByKeyDesc_subperm _ _ _)
      (take_sortByKeyDesc_subperm _ _ _)).trans
        (tiersUncapped_perm reqs (smartFilter raw)).subperm
  · intro h10 h5a h5o
    simp only [smartRecommendTiers_eq]
    have e1 : (sortByKeyDesc (candKey reqs) (tiersUncapped reqs (smartFilter raw)).1).take 10
        = sortByKeyDesc (candKey reqs) (tiersUncapped reqs (smartFilter raw)).1 :=
      List.take_all_of_le (by rw [(sortByKeyDesc_perm _ _).length_eq]; exact h10)
    have e2 : (sortByKeyDesc (candKey reqs) (tiersUncapped reqs (smartFilter raw)).2.1).take 5
        = sortByKeyDesc (candKey reqs) (tiersUncapped reqs (smartFilter raw)).2.1 :=
      List.take_all_of_le (by rw [(sortByKeyDesc_perm _ _).length_eq]; exact h5a)
    have e3 : (sortByKeyDesc (candKey reqs) (tiersUncapped reqs (smartFilter raw)).2.2).take 5
        = sortByKeyDesc (candKey reqs) (tiersUncapped reqs (smartFilter raw)).2.2 :=
      List.take_all_of_le (by rw [(sortByKeyDesc_perm _ _).length_eq]; exact h5o)
    rw [e1, e2, e3]
    exact (((sortByKeyDesc_perm _ _).append (sortByKeyDesc_perm _ _)).append
      (sortByKeyDesc_perm _ _)).trans (tiersUncapped_perm reqs (smartFilter raw))

set_option maxRecDepth 40000 in
/-- C1 witness: on a one-candidate run the (capped) response tiers are a
permutation of the floor-filtered candidate set. -/
theorem c1_tier_partition_amended_witness :
    ((smartRecommendTiers emptyReqs [redCand "w" 50 (7/10)]).perfect
      ++ (smartRecommendTiers emptyReqs [redCand "w" 50 (7/10)]).alternatives
      ++ (smartRecommendTiers emptyReqs [redCand "w" 50 (7/10)]).overBudget).Perm
        (smartFilter [redCand "w" 50 (7/10)]) :=
  (c1_tier_partition_amended emptyReqs [redCand "w" 50 (7/10)]).2.2.2.2.2
    (by with_unfolding_all decide) (by with_unfolding_all decide)
    (by with_unfolding_all decide)

set_option maxRecDepth 40000 in
/-- C1 counterexample: with eleven candidates all classifying as perfect
matches, the response truncates the perfect tier to 10, so the union of the
three returned tiers has 10 elements while the floor-filtered candidate set
has 11 — the returned tiers do not cover the candidate set, contradicting the
claim as stated. -/
theorem c1_tier_partition_counterexample :
    (smartRecommendTiers emptyReqs elevenCands).perfect.length
        + (smartRecommendTiers emptyReqs elevenCands).alternatives.length
        + (smartRecommendTiers emptyReqs elevenCands).overBudget.length = 10
      ∧ (smartFilter elevenCands).length = 11 := by
  with_unfolding_all decide

lemma tierMismatch_budget_irrel (reqs : UserReqs) (b b' : Option ℚ) (c : Candidate) :
    tierMismatch { reqs with budget := b } c = tierMismatch { reqs with budget := b' } c := rfl

/-- C5: amended budget monotonicity. For a fixed floor-filtered candidate
list, raising the budget never removes a candidate from the *uncapped*
within-budget tiers (perfect or alternatives): classification into those
tiers is monotone in the budget ceiling. (The returned response tiers are
additionally capped at 10/5 entries after sorting, which can evict a
candidate — see the counterexample.) -/
theorem c5_budget_monotonicity_amended (reqs : UserReqs) (b1 b2 : ℚ) (raw : List Candidate)
    (c : Candidate) (hb : b1 ≤ b2) :
    (c ∈ (tiersUncapped { reqs with budget := some b1 } (smartFilter raw)).1 →
      c ∈ (tiersUncapped { reqs with budget := some b2 } (smartFilter raw)).1)
    ∧ (c ∈ (tiersUncapped { reqs with budget := some b1 } (smartFilter raw)).2.1 →
      c ∈ (tiersUncapped { reqs with budget := some b2 } (smartFilter raw)).2.1) := by
  constructor
  · intro hc
    have h := mem_tiersUncapped_perfect.mp hc
    refine mem_tiersUncapped_perfect.mpr ⟨h.1, ?_, ?_⟩
    · have hle : c.payload.price ≤ b1 := by
        have hwb := h.2.1
        simpa [withinBudget] using hwb
      simp [withinBudget]
      exact hle.trans hb
    · rw [← tierMismatch_budget_irrel reqs (some b1) (some b2) c]
      exact h.2.2
  · intro hc
    have h := mem_tiersUncapped_alternatives.mp hc
    refine mem_tiersUncapped_alternatives.mpr ⟨h.1, ?_, ?_⟩
    · have hle : c.payload.price ≤ b1 := by
        have hwb := h.2.1
        simpa [withinBudget] using hwb
      simp [withinBudget]
      exact hle.trans hb
    · rw [← tierMismatch_budget_irrel reqs (some b1) (some b2) c]
      exact h.2.2

set_option maxRecDepth 40000 in
/-- C5 witness: a candidate within budget 100 (alternatives tier) is still in
the alternatives tier at budget 200. -/
theorem c5_budget_monotonicity_amended_witness :
    redCand "p1" 50 (8/10)
      ∈ (tiersUncapped { blueReqsBase with budget := some 200 } (smartFilter sixCands)).2.1 :=
  (c5_budget_monotonicity_amended blueReqsBase 100 200 sixCands (redCand "p1" 50 (8/10))
    (by norm_num)).2 (by with_unfolding_all decide)

set_option maxRecDepth 40000 in
/-- C5 counterexample: with budget 100, candidate p5 is returned in the
alternatives tier; raising the budget to 200 moves the formerly over-budget,
higher-scoring p6 into the alternatives tier, and the cap of 5 then evicts p5
from the response entirely — so raising the budget does remove a candidate
from the returned within-budget tiers, contradicting the claim. -/
theorem c5_budget_monotonicity_counterexample :
    (smartRecommendTiers { blueReqsBase with budget := some 100 } sixCands).alternatives.contains
        (redCand "p5" 50 (68/100)) = true
      ∧ (smartRecommendTiers { blueReqsBase with budget := some 200 } sixCands).alternatives.contains
          (redCand "p5" 50 (68/100)) = false
      ∧ (smartRecommendTiers { blueReqsBase with budget := some 200 } sixCands).perfect.contains
          (redCand "p5" 50 (68/100)) = false
      ∧ ((100 : ℚ) ≤ 200) := by
  with_unfolding_all decide

lemma analyzeCompromises_disadvantages (p : Product) (reqs : UserReqs) (sim : ℚ) :
    (analyzeCompromises p reqs sim).disadvantages
      = (budgetBlock reqs.budget p.price).dis
        ++ (colorBlock reqs.colors (p.colors.map String.toLower)).dis
        ++ (materialBlock reqs.materials p.description.toLower p.name.toLower
              (p.tags.map String.toLower)).dis := rfl

lemma budgetBlock_dis_ne (budget : Option ℚ) (price : ℚ) :
    (budgetBlock budget price).dis ≠ [] ↔ ∃ b, budget = some b ∧ b ≠ 0 ∧ b < price := by
  cases budget with
  | none => simp [budgetBlock]
  | some b =>
    by_cases hb : b = 0
    · simp [budgetBlock, hb]
    · by_cases hd : price - b ≤ 0
      · have hnb : ¬ b < price := by linarith
        simp only [budgetBlock, hb, hd, hnb, if_true, if_false, ite_false, ite_true]
        constructor
        · intro h
          exfalso
          revert h
          split <;> simp
        · rintro ⟨b', hb', hne, hlt⟩
          injection hb' with heq
          subst heq
          exact absurd hlt hnb
      · have hlt : b < price := by linarith
        simp [budgetBlock, hb, hd, hlt]

lemma colorBlock_dis_ne (rc pcs : List String) :
    (colorBlock rc pcs).dis ≠ [] ↔ rc ≠ [] ∧ ∀ c ∈ rc, ∀ pc ∈ pcs, strIn c pc = false := by
  by_cases hrc : rc = []
  · simp [colorBlock, hrc]
  · have hmatch : (rc.filter (fun c => pcs.any (fun pc => strIn c pc)) = [])
        ↔ (∀ c ∈ rc, ∀ pc ∈ pcs, strIn c pc = false) := by
      simp [List.filter_eq_nil_iff, List.any_eq_false]
    by_cases hm : rc.filter (fun c => pcs.any (fun pc => strIn c pc)) = []
    · have hforall := hmatch.mp hm
      constructor
      · intro _
        exact ⟨hrc, hforall⟩
      · intro _
        by_cases hp : pcs = [] <;> simp [colorBlock, hrc, hm, hp]
    · have hnall : ¬ (∀ c ∈ rc, ∀ pc ∈ pcs, strIn c pc = false) := fun h => hm (hmatch.mpr h)
      simp [colorBlock, hrc, hm, hnall]

lemma materialBlock_dis_ne (rm : List String) (desc nm : String) (tags : List String) :
    (materialBlock rm desc nm tags).dis ≠ [] ↔
      ∃ m ∈ rm, materialPresent desc nm tags m = false := by
  rw [Ne, materialBlock]
  simp only [List.map_eq_nil_iff, List.filter_eq_nil_iff, Bool.not_eq_true, not_forall]
  constructor
  · rintro ⟨m, hm, hmiss⟩
    refine ⟨m, hm, ?_⟩
    simpa using hmiss
  · rintro ⟨m, hm, hmiss⟩
    exact ⟨m, hm, by simpa using hmiss⟩

/-- C3: amended disadvantages invariant of `analyze_compromises`. The
disadvantages list is non-empty iff the candidate fails at least one
constraint, where the constraints are: price strictly exceeds a stated
*non-zero* budget; colors were requested and *no* requested color occurs (as
a substring) in any of the product's colors; or some requested material is
absent from the product's description, name, and all tags. -/
theorem c3_disadvantages_iff_amended (p : Product) (reqs : UserReqs) (sim : ℚ) :
    (analyzeCompromises p reqs sim).disadvantages ≠ [] ↔
      (∃ b, reqs.budget = some b ∧ b ≠ 0 ∧ b < p.price)
      ∨ (reqs.colors ≠ [] ∧ ∀ c ∈ reqs.colors, ∀ pc ∈ p.colors, strIn c pc.toLower = false)
      ∨ (∃ m ∈ reqs.materials, materialPresent p.description.toLower p.name.toLower
          (p.tags.map String.toLower) m = false) := by
  rw [analyzeCompromises_disadvantages]
  have h3 : ∀ x y z : List String, (x ++ y ++ z ≠ []) ↔ (x ≠ [] ∨ y ≠ [] ∨ z ≠ []) := by
    intro x y z
    simp only [Ne, List.append_eq_nil]
    tauto
  rw [h3]
  refine or_congr (budgetBlock_dis_ne _ _) (or_congr ?_ (materialBlock_dis_ne _ _ _ _))
  rw [colorBlock_dis_ne]
  refine and_congr Iff.rfl ?_
  constructor
  · intro h c hc pc hpc
    exact h c hc pc.toLower (List.mem_map_of_mem _ hpc)
  · intro h c hc pc hpc
    rcases List.mem_map.mp hpc with ⟨pc0, hpc0, rfl⟩
    exact h c hc pc0 hpc0

set_option maxRecDepth 40000 in
/-- C3 witness: requesting only blue against a blue product with a $600
budget and price $600 yields a non-empty disadvantages check consistent with
the amended invariant (here: empty disadvantages, since no constraint
fails). -/
theorem c3_disadvantages_iff_amended_witness :
    ¬ ((analyzeCompromises blueSofaCheap
        { twoColorReqs with colors := ["blue"] } 0).disadvantages ≠ []) := by
  rw [c3_disadvantages_iff_amended]
  with_unfolding_all decide

set_option maxRecDepth 40000 in
/-- C3 counterexample. First input: colors ["blue", "red"] requested against
a product whose only color is "blue" — the requested color "red" is absent
from the product's colors, yet `analyze_compromises` reports no disadvantage
(the code only adds a color disadvantage when *no* requested color matches).
Second input: a stated budget of $0 with price $5 — the price exceeds the
stated budget, yet no disadvantage is produced (Python truthiness skips the
whole budget block for a 0 budget). Both contradict the claim as stated. -/
theorem c3_disadvantages_iff_counterexample :
    ((analyzeCompromises blueSofaCheap twoColorReqs 0).disadvantages = []
      ∧ "red" ∈ twoColorReqs.colors
      ∧ (∀ pc ∈ blueSofaCheap.colors, strIn "red" pc.toLower = false))
    ∧ ((analyzeCompromises (redSofa "b" 5) zeroBudgetReqs 0).disadvantages = []
      ∧ zeroBudgetReqs.budget = some 0 ∧ (0 : ℚ) < (redSofa "b" 5).price) := by
  with_unfolding_all decide

lemma budgetBlock_over (b price : ℚ) (hb : 0 < b) (hover : b < price) :
    budgetBlock (some b) price
      = ⟨[], ["$" ++ intStr (fmt0 (price - b)) ++ " over budget (+"
            ++ intStr (fmt0 ((price - b) / b * 100)) ++ "%)"],
          -((price - b) / b * 100 / 10)⟩ := by
  have h0 : ¬ b = 0 := ne_of_gt hb
  have hd : ¬ price - b ≤ 0 := by linarith
  simp [budgetBlock, h0, hd, hb]

lemma budgetBlock_exact (b : ℚ) (hb : 0 < b) :
    budgetBlock (some b) b = ⟨["Within budget"], [], 15⟩ := by
  have h0 : ¬ b = 0 := ne_of_gt hb
  have hd : b - b ≤ 0 := by linarith
  have hu : ¬ b * (1/10) < |b - b| := by
    rw [sub_self, abs_zero]
    intro h
    nlinarith
  simp [budgetBlock, h0, hd, hu, hb.le]

/-- C4: when a (positive) budget is given and the candidate's price strictly
exceeds it, `analyze_compromises` prepends exactly one price disadvantage —
carrying both the dollar overage and the percent overage — to the
disadvantages it would produce without a budget, and the score penalty is
the percent overage divided by 10 (proportional, not flat). -/
theorem c4_price_over_budget (p : Product) (reqs : UserReqs) (sim : ℚ) (b : ℚ)
    (hbud : reqs.budget = some b) (hb : 0 < b) (hover : b < p.price) :
    (analyzeCompromises p reqs sim).disadvantages
      = ("$" ++ intStr (fmt0 (p.price - b)) ++ " over budget (+"
          ++ intStr (fmt0 ((p.price - b) / b * 100)) ++ "%)")
        :: (analyzeCompromises p { reqs with budget := none } sim).disadvantages
    ∧ (analyzeCore p reqs sim).2.2
      = (analyzeCore p { reqs with budget := none } sim).2.2
        - (p.price - b) / b * 100 / 10 := by
  constructor
  · rw [analyzeCompromises_disadvantages, analyzeCompromises_disadvantages, hbud,
      budgetBlock_over b p.price hb hover]
    simp [budgetBlock]
  · simp only [analyzeCore]
    rw [hbud, budgetBlock_over b p.price hb hover]
    simp [budgetBlock]
    ring

set_option maxRecDepth 40000 in
/-- C4 witness: the $949 sofa against a $600 budget yields exactly the
disadvantage "$349 over budget (+58%)" (349/600 = 58.2% overage rounded to
58) and the proportional penalty 349/600*100/10. -/
theorem c4_price_over_budget_witness :
    (analyzeCompromises sofa949 budget600Reqs 0).disadvantages = ["$349 over budget (+58%)"]
    ∧ (analyzeCore sofa949 budget600Reqs 0).2.2
      = (analyzeCore sofa949 { budget600Reqs with budget := none } 0).2.2
        - (349 : ℚ) / 600 * 100 / 10 := by
  have h := c4_price_over_budget sofa949 budget600Reqs 0 600 rfl (by norm_num) (by norm_num [sofa949])
  constructor
  · rw [h.1]
    with_unfolding_all decide
  · have h2 := h.2
    norm_num at h2 ⊢
    convert h2 using 2
    with_unfolding_all decide

/-- C9: a candidate priced exactly at a (positive) budget ceiling gets no
price disadvantage and no price-saving advantage: its disadvantages are
exactly those of a budget-free run, and its advantages are the plain
"Within budget" marker prepended to the budget-free advantages. The
`_analyze_budget` helper of the embedding trade-off analyzer likewise emits
only the neutral "Exactly your budget" gain and no loss. -/
theorem c9_exact_budget_neutral (p : Product) (reqs : UserReqs) (sim : ℚ) (b : ℚ)
    (hbud : reqs.budget = some b) (hb : 0 < b) (hpr : p.price = b) :
    (analyzeCompromises p reqs sim).disadvantages
        = (analyzeCompromises p { reqs with budget := none } sim).disadvantages
    ∧ (analyzeCompromises p reqs sim).advantages
        = "Within budget" :: (analyzeCore p { reqs with budget := none } sim).1
    ∧ (∀ b' : ℚ, analyzeBudgetTradeoff b' b'
        = (["✓ Exactly your budget of $" ++ intStr (fmt0 b')], [])) := by
  refine ⟨?_, ?_, ?_⟩
  · rw [analyzeCompromises_disadvantages, analyzeCompromises_disadvantages, hbud, hpr,
      budgetBlock_exact b hb]
    simp [budgetBlock]
  · have hadv : (analyzeCore p reqs sim).1
        = "Within budget" :: (analyzeCore p { reqs with budget := none } sim).1 := by
      simp only [analyzeCore]
      rw [hbud, hpr, budgetBlock_exact b hb]
      simp [budgetBlock]
    have hwrap : (analyzeCompromises p reqs sim).advantages
        = if (analyzeCore p reqs sim).1 = [] then ["Matches your search criteria"]
          else (analyzeCore p reqs sim).1 := rfl
    rw [hwrap, hadv]
    simp
  · intro b'
    simp [analyzeBudgetTradeoff]

/-- C9 witness: a $600 product against the $600 budget keeps the budget-free
disadvantages (here none) and gains only the "Within budget" marker. -/
theorem c9_exact_budget_neutral_witness :
    (analyzeCompromises sofa600 budget600Reqs 0).disadvantages
        = (analyzeCompromises sofa600 { budget600Reqs with budget := none } 0).disadvantages
    ∧ (analyzeCompromises sofa600 budget600Reqs 0).advantages
        = "Within budget" :: (analyzeCore sofa600 { budget600Reqs with budget := none } 0).1 :=
  ⟨(c9_exact_budget_neutral sofa600 budget600Reqs 0 600 rfl (by norm_num) rfl).1,
   (c9_exact_budget_neutral sofa600 budget600Reqs 0 600 rfl (by norm_num) rfl).2.1⟩

lemma uploadLoop_succ (ok : Nat → Bool) (attempt fuel : Nat) (waits : List Nat) :
    uploadLoop ok attempt (fuel + 1) waits
      = if ok attempt then .ok (attempt + 1, waits)
        else if fuel = 0 then .error waits
        else uploadLoop ok (attempt + 1) fuel (waits ++ [backoffWait attempt]) := rfl

lemma uploadBatch_eq (ok : Nat → Bool) :
    uploadBatch ok
      = if ok 0 then .ok (1, [])
        else if ok 1 then .ok (2, [backoffWait 0])
        else if ok 2 then .ok (3, [backoffWait 0, backoffWait 1])
        else .error [backoffWait 0, backoffWait 1] := by
  rw [uploadBatch, show (3 : Nat) = 2 + 1 from rfl, uploadLoop_succ]
  by_cases h0 : ok 0
  · simp [h0]
  · simp only [h0, Bool.false_eq_true, if_false]
    rw [show (2 : Nat) = 1 + 1 from rfl, uploadLoop_succ]
    by_cases h1 : ok 1
    · simp [h1]
    · simp only [h1, Bool.false_eq_true, if_false]
      rw [show (1 : Nat) = 0 + 1 from rfl, uploadLoop_succ]
      by_cases h2 : ok 2 <;> simp [h2]

lemma uploadBatch_error_of_allFail {ok : Nat → Bool} (h : ∀ a < 3, ok a = false) :
    uploadBatch ok = .error [backoffWait 0, backoffWait 1] := by
  rw [uploadBatch_eq]
  simp [h 0 (by norm_num), h 1 (by norm_num), h 2 (by norm_num)]

lemma indexRun_ne_ok_of_fail :
    ∀ batches : List (Nat → Bool), (∃ b ∈ batches, ∀ a < 3, b a = false) →
      ∀ n, indexRun batches ≠ .ok n := by
  intro batches
  induction batches with
  | nil =>
    rintro ⟨b, hb, _⟩
    simp at hb
  | cons b rest ih =>
    rintro ⟨b0, hb0, hfail⟩ n
    rcases List.mem_cons.mp hb0 with rfl | hmem
    · simp [indexRun, uploadBatch_error_of_allFail hfail]
    · cases hub : uploadBatch b with
      | error w => simp [indexRun, hub]
      | ok x =>
        cases hrest : indexRun rest with
        | error w => simp [indexRun, hub, hrest]
        | ok m => exact absurd hrest (ih ⟨b0, hmem, hfail⟩ m)

/-- C8: each batch upload is attempted at most three times; the waits slept
between attempts are the increasing sequence 5s then 10s (each wait doubling
the previous one, i.e. consistent with exponential backoff, and given by
`(attempt+1)*5`); a batch whose three attempts all fail raises — the run's
upload phase can then never report success, so the failed batch aborts the
whole index run rather than being dropped silently. -/
theorem c8_retry_backoff_abort :
    (∀ (ok : Nat → Bool) (n : Nat) (w : List Nat), uploadBatch ok = .ok (n, w) →
      n ≤ 3 ∧ w = (List.range (n - 1)).map backoffWait)
    ∧ (∀ (ok : Nat → Bool) (w : List Nat), uploadBatch ok = .error w →
      w = [backoffWait 0, backoffWait 1] ∧ ∀ a < 3, ok a = false)
    ∧ backoffWait 0 = 5 ∧ backoffWait 1 = 10 ∧ backoffWait 1 = 2 * backoffWait 0
    ∧ (∀ i j : Nat, i < j → backoffWait i < backoffWait j)
    ∧ (∀ batches : List (Nat → Bool),
        (∃ b ∈ batches, ∀ a < 3, b a = false) → ∀ n, indexRun batches ≠ .ok n) := by
  refine ⟨?_, ?_, rfl, rfl, rfl, ?_, indexRun_ne_ok_of_fail⟩
  · intro ok n w h
    rw [uploadBatch_eq] at h
    by_cases h0 : ok 0
    · rw [if_pos h0] at h
      injection h with h
      injection h with hn hw
      subst hn; subst hw
      exact ⟨by norm_num, by simp⟩
    · rw [if_neg h0] at h
      by_cases h1 : ok 1
      · rw [if_pos h1] at h
        injection h with h
        injection h with hn hw
        subst hn; subst hw
        refine ⟨by norm_num, ?_⟩
        simp [List.range_succ]
      · rw [if_neg h1] at h
        by_cases h2 : ok 2
        · rw [if_pos h2] at h
          injection h with h
          injection h with hn hw
          subst hn; subst hw
          refine ⟨by norm_num, ?_⟩
          simp [List.range_succ]
        · rw [if_neg h2] at h
          exact absurd h (by simp)
  · intro ok w h
    rw [uploadBatch_eq] at h
    by_cases h0 : ok 0
    · rw [if_pos h0] at h; exact absurd h (by simp)
    · rw [if_neg h0] at h
      by_cases h1 : ok 1
      · rw [if_pos h1] at h; exact absurd h (by simp)
      · rw [if_neg h1] at h
        by_cases h2 : ok 2
        · rw [if_pos h2] at h; exact absurd h (by simp)
        · rw [if_neg h2] at h
          injection h with hw
          subst hw
          refine ⟨rfl, ?_⟩
          intro a ha
          interval_cases a
          · exact Bool.eq_false_iff.mpr h0
          · exact Bool.eq_false_iff.mpr h1
          · exact Bool.eq_false_iff.mpr h2
  · intro i j hij
    simp only [backoffWait]
    omega

/-- C8 witness: a batch whose upsert always fails makes exactly the waits
5 and 10 and aborts a one-batch run. -/
theorem c8_retry_backoff_abort_witness :
    ([5, 10] = [backoffWait 0, backoffWait 1] ∧ ∀ a < 3, (fun _ : Nat => false) a = false)
    ∧ indexRun [fun _ => false] ≠ .ok 0 := by
  constructor
  · exact c8_retry_backoff_abort.2.1 (fun _ => false) [5, 10] (uploadBatch_error_of_allFail (fun a _ => rfl))
  · exact c8_retry_backoff_abort.2.2.2.2.2.2 [fun _ => false]
      ⟨fun _ => false, List.mem_singleton.mpr rfl, fun a _ => rfl⟩ 0

/-- C10: the cosine-similarity helper is total and guards the zero-norm case:
whenever either vector's norm (the square root of its squared norm) is zero —
in particular for any all-zero vector — it returns 0 instead of dividing. -/
theorem c10_cosine_zero_norm (sqrt : ℚ → ℚ) (v1 v2 : List ℚ)
    (h : sqrt (sqNorm v1) = 0 ∨ sqrt (sqNorm v2) = 0) :
    cosineSimilarity sqrt v1 v2 = 0 := by
  rcases h with h | h <;> simp [cosineSimilarity, h]

/-- C10 witness: the zero vector against [1, 2] yields similarity 0. -/
theorem c10_cosine_zero_norm_witness :
    cosineSimilarity guardSqrt [0, 0] [1, 2] = 0 :=
  c10_cosine_zero_norm guardSqrt [0, 0] [1, 2] (Or.inl (by with_unfolding_all decide))

/-- C2: amended substitution trigger of `fusion_recommend`. The graph-space
search is performed at most once per request, and it is performed exactly
once iff the primary CLIP search returns at least one candidate and the top
hit's graph vector is retrievable and non-empty — independently of whether a
budget was given. In particular, when the primary search returns zero
candidates the graph search is never invoked (even with a budget), and with
no budget it is still invoked whenever the primary search is non-empty. -/
theorem c2_substitution_trigger_amended (primary : Option ℚ → List Candidate)
    (refv : Option (List ℚ)) (mp : Option ℚ) :
    fusionGraphInvocations primary refv mp ≤ 1
    ∧ (fusionGraphInvocations primary refv mp = 1 ↔
        (primary mp ≠ [] ∧ ∃ v, refv = some v ∧ v ≠ [])) := by
  cases refv with
  | none =>
    by_cases hp : (primary mp).isEmpty <;> simp [fusionGraphInvocations, hp]
  | some v =>
    by_cases hp : (primary mp).isEmpty <;> by_cases hv : v.isEmpty <;>
      simp_all [fusionGraphInvocations, List.isEmpty_iff]

/-- C2 witness: with no budget and a non-empty primary result whose top hit
has a graph vector, the graph search runs exactly once. -/
theorem c2_substitution_trigger_amended_witness :
    fusionGraphInvocations (fun _ => [redCand "f" 100 (1/2)]) (some [1]) none = 1 :=
  (c2_substitution_trigger_amended (fun _ => [redCand "f" 100 (1/2)]) (some [1]) none).2.mpr
    ⟨by simp, [1], rfl, by simp⟩

/-- C2 counterexample. First: a query with *no* budget whose primary search
returns a candidate still triggers the graph search (count 1, where the
claim demands 0). Second: a query with a budget whose primary search returns
zero candidates never reaches the graph search (count 0, where the claim
demands exactly 1). `fusion_recommend` runs the graph search as a fusion arm
gated only on the primary result being non-empty, not as an empty-result
fallback. -/
theorem c2_substitution_trigger_counterexample :
    fusionGraphInvocations (fun _ => [redCand "f" 100 (1/2)]) (some [1]) none = 1
    ∧ fusionGraphInvocations (fun _ => []) (some [1]) (some 100) = 0 := by
  constructor <;> rfl

/-- C7: amended vector-completeness invariant of the indexer. With all
producers enabled, the `text_clip`, `image_clip` and `color` spaces are
always present in an item's upsert — a failing or missing producer is
replaced by a zero vector of the space's fixed dimension (512/512/548) — but
the `graph` space is present exactly when the item id is in the
graph-embedding table, and is *omitted* (not zero-filled) otherwise. -/
theorem c7_zero_vector_amended (o : ProducerOutputs) :
    ((upsertVectors true true true o).map Prod.fst
      = if o.graphEmbedding.isSome then ["text_clip", "image_clip", "color", "graph"]
        else ["text_clip", "image_clip", "color"])
    ∧ (o.clipText = none → clipTextVector o = zeros 512)
    ∧ (o.imageUrl = none → clipImageVector o = zeros 512)
    ∧ (∀ u, o.imageUrl = some u → o.clipImage = none → clipImageVector o = zeros 512)
    ∧ (o.colorFeatures = none → colorVector o = zeros 548) := by
  refine ⟨?_, ?_, ?_, ?_, ?_⟩
  · cases hg : o.graphEmbedding <;> simp [upsertVectors, hg]
  · intro h
    simp [clipTextVector, h]
  · intro h
    simp [clipImageVector, h]
  · intro u hu hi
    by_cases he : u = "" <;> simp [clipImageVector, hu, hi, he]
  · intro h
    simp [colorVector, h]

/-- C7 witness: when every producer fails, the CLIP text and color vectors
written are the zero vectors of their fixed dimensions. -/
theorem c7_zero_vector_amended_witness :
    clipTextVector producerAllFail = zeros 512
    ∧ colorVector producerAllFail = zeros 548 :=
  ⟨(c7_zero_vector_amended producerAllFail).2.1 rfl,
   (c7_zero_vector_amended producerAllFail).2.2.2.2 rfl⟩

/-- C7 counterexample: an item absent from the graph-embedding table (e.g.
when the graph was empty and the embedding table is `{}`) is upserted with no
`graph` entry at all — the space is omitted rather than written as a zero
vector, contradicting the claim that no vector space is ever omitted. -/
theorem c7_zero_vector_counterexample :
    ((upsertVectors true true true producerAllFail).map Prod.fst).contains "graph" = false
    ∧ producerAllFail.graphEmbedding = none := by
  constructor <;> rfl

lemma argmaxFirst_eq_none {sim : String → ℚ} {l : List String} :
    argmaxFirst sim l = none ↔ l = [] := by
  cases l with
  | nil => simp [argmaxFirst]
  | cons x xs =>
    simp only [argmaxFirst]
    cases argmaxFirst sim xs <;> simp
    split <;> simp

lemma argmaxFirst_mem {sim : String → ℚ} :
    ∀ {l : List String} {t : String}, argmaxFirst sim l = some t → t ∈ l := by
  intro l
  induction l with
  | nil =>
    intro t h
    simp [argmaxFirst] at h
  | cons x xs ih =>
    intro t h
    simp only [argmaxFirst] at h
    cases hx : argmaxFirst sim xs with
    | none =>
      rw [hx] at h
      injection h with h2
      subst h2
      exact List.mem_cons_self _ _
    | some y =>
      rw [hx] at h
      dsimp only at h
      by_cases hc : sim x < sim y
      · rw [if_pos hc] at h
        injection h with h2
        subst h2
        exact List.mem_cons_of_mem _ (ih hx)
      · rw [if_neg hc] at h
        injection h with h2
        subst h2
        exact List.mem_cons_self _ _

lemma argmaxFirst_le {sim : String → ℚ} :
    ∀ {l : List String} {t : String}, argmaxFirst sim l = some t →
      ∀ x ∈ l, sim x ≤ sim t := by
  intro l
  induction l with
  | nil =>
    intro t h
    simp [argmaxFirst] at h
  | cons a xs ih =>
    intro t h x hx
    simp only [argmaxFirst] at h
    cases hrec : argmaxFirst sim xs with
    | none =>
      have hxs : xs = [] := argmaxFirst_eq_none.mp hrec
      subst hxs
      rw [hrec] at h
      injection h with h2
      subst h2
      rcases List.mem_cons.mp hx with rfl | hfalse
      · exact le_refl _
      · simp at hfalse
    | some y =>
      rw [hrec] at h
      dsimp only at h
      rcases List.mem_cons.mp hx with rfl | hxxs
      · by_cases hc : sim x < sim y
        · rw [if_pos hc] at h
          injection h with h2
          subst h2
          exact le_of_lt hc
        · rw [if_neg hc] at h
          injection h with h2
          subst h2
          exact le_refl _
      · have hy := ih hrec x hxxs
        by_cases hc : sim a < sim y
        · rw [if_pos hc] at h
          injection h with h2
          subst h2
          exact hy
        · rw [if_neg hc] at h
          injection h with h2
          subst h2
          exact hy.trans (not_lt.mp hc)

lemma leatherVariants_filter :
    leatherVariants.filter (fun v => attributeKeys.contains v) = ["pu leather"] := by decide

/-- C6: material resolution of the preference extractor. A material is
resolved iff some base material's similarity strictly exceeds the 0.3 floor
(equivalently, iff the top base-material similarity does); the result is the
"pu leather" variant (the only leather variant with a canonical embedding)
iff the top base material is leather, accepted above the floor, and the
variant's similarity exceeds the base similarity by strictly more than the
0.1 margin. Concretely, base 0.35 with variant 0.50 resolves to the variant,
while base 0.35 with variant 0.40 (margin 0.05) resolves to the base. -/
theorem c6_material_margin :
    (∀ sim : String → ℚ,
      (extractMaterial sim).isSome = true ↔ ∃ b ∈ baseMaterials, 3/10 < sim b)
    ∧ (∀ sim : String → ℚ, extractMaterial sim = some "pu leather" ↔
        (argmaxFirst sim baseMaterials = some "leather" ∧ 3/10 < sim "leather"
          ∧ sim "leather" + 1/10 < sim "pu leather"))
    ∧ extractMaterial simLeatherStrong = some "pu leather"
    ∧ extractMaterial simLeatherWeak = some "leather" := by
  refine ⟨?_, ?_, by with_unfolding_all decide, by with_unfolding_all decide⟩
  · intro sim
    constructor
    · intro h
      cases htop : argmaxFirst sim baseMaterials with
      | none =>
        rw [extractMaterial, htop] at h
        simp at h
      | some top =>
        by_cases hth : 3/10 < sim top
        · exact ⟨top, argmaxFirst_mem htop, hth⟩
        · rw [extractMaterial, htop] at h
          dsimp only at h
          rw [if_neg hth] at h
          simp at h
    · rintro ⟨b, hbmem, hbgt⟩
      cases htop : argmaxFirst sim baseMaterials with
      | none =>
        rw [argmaxFirst_eq_none] at htop
        rw [htop] at hbmem
        simp at hbmem
      | some top =>
        have htop3 : 3/10 < sim top := lt_of_lt_of_le hbgt (argmaxFirst_le htop b hbmem)
        rw [extractMaterial, htop]
        dsimp only
        rw [if_pos htop3]
        by_cases hl : top = "leather"
        · subst hl
          rw [if_pos rfl, leatherVariants_filter]
          simp only [argmaxFirst]
          split <;> simp
        · rw [if_neg hl]
          simp
  · intro sim
    constructor
    · intro h
      cases htop : argmaxFirst sim baseMaterials with
      | none =>
        rw [extractMaterial, htop] at h
        simp at h
      | some top =>
        rw [extractMaterial, htop] at h
        dsimp only at h
        by_cases hth : 3/10 < sim top
        · rw [if_pos hth] at h
          by_cases hl : top = "leather"
          · subst hl
            rw [if_pos rfl, leatherVariants_filter] at h
            simp only [argmaxFirst] at h
            by_cases hm : sim "leather" + 1/10 < sim "pu leather"
            · exact ⟨rfl, hth, hm⟩
            · rw [if_neg hm] at h
              injection h with h2
              exact absurd h2 (by decide)
          · rw [if_neg hl] at h
            injection h with h2
            subst h2
            exact absurd (argmaxFirst_mem htop) (by decide)
        · rw [if_neg hth] at h
          simp at h
    · rintro ⟨htop, hth, hm⟩
      rw [extractMaterial, htop]
      dsimp only
      rw [if_pos hth, if_pos rfl, leatherVariants_filter]
      simp only [argmaxFirst]
      rw [if_pos hm]

/-- C6 witness: the strong-variant similarity profile resolves to some
material (the floor test succeeds at leather = 0.35 > 0.3). -/
theorem c6_material_margin_witness :
    (extractMaterial simLeatherStrong).isSome = true :=
  (c6_material_margin.1 simLeatherStrong).mpr
    ⟨"leather", by decide, by with_unfolding_all decide⟩
